import Mathlib

/-!
Verification development for the DesignSpark.ESDK sensor library.

The definitions below are a shallow embedding of the Python sources:

* `DesignSpark/ESDK/NO2.py` — the gas-sensor driver `ModNO2`: the
  moving-average smoothing (`_calculateMovingAverage`), the background
  acquisition loop (`_adcPollingThread`), the mode-based noise rejection,
  the concentration formula, and the read operations `readNO2` /
  `readSensors`.
* `DesignSpark/ESDK/MAIN.py` — the orchestrator `ModMAIN`: module probing
  (`_probeModules`), driver construction (`createModules`), aggregate
  reads (`readAllModules`) and the plugin loader (`loadPlugins`).

Python floats are modelled as rationals; Python `round(x, n)` is modelled
as round-half-to-even on rationals.  Machine-level I2C traffic is
abstracted as oracles (functions) saying whether a given bus transaction
succeeds, and raised exceptions are modelled with `Except`/`Option`.
-/

/-! ### Rounding: Python `round(x, 2)` as round-half-to-even on ℚ -/

/-- Round a rational to the nearest integer, ties going to the even
integer (Python's banker rounding), computed on numerator/denominator
with floor division.  `r` is the remainder `q.num - ⌊q⌋ * q.den`, which
lies in `[0, q.den)`; comparing `2 * r` with `q.den` compares the
fractional part of `q` with `1/2`. -/
def roundHalfEven (q : ℚ) : ℤ :=
  let f := Int.fdiv q.num q.den
  let r := q.num - f * q.den
  if 2 * r < (q.den : ℤ) then f
  else if (q.den : ℤ) < 2 * r then f + 1
  else if 2 ∣ f then f else f + 1

/-- Python `round(x, 2)`: round to 2 decimal places, ties to even. -/
def round2 (q : ℚ) : ℚ := (roundHalfEven (q * 100) : ℚ) / 100

/-! ### `ModNO2._calculateMovingAverage` (NO2.py lines 192-209)

```
def _calculateMovingAverage(self, new_data_point, data_list, average_size):
    data_list.insert(0, new_data_point)
    try:
        data_list.pop(average_size)
    except Exception as e:
        pass
    total = 0
    total = sum(data_list)
    value = round(total / len(data_list), 2)
    if(value == None):
        return 0
    else:
        return value
```

`list.pop(i)` removes the element at index `i` and raises `IndexError`
when the index is out of range; the `except: pass` makes an out-of-range
pop a no-op — together exactly `List.eraseIdx`.  The `value == None`
branch is dead code (`round` never returns `None`), so the function
returns the rounded mean.  The Python function mutates `data_list` in
place and returns the value; the model returns the pair
(new list, returned value). -/

def calculateMovingAverage (new_data_point : ℚ) (data_list : List ℚ)
    (average_size : ℕ) : List ℚ × ℚ :=
  let l := (new_data_point :: data_list).eraseIdx average_size
  (l, round2 (l.sum / (l.length : ℚ)))

/-- Run a sequence of pushes through `_calculateMovingAverage` starting
from the window `w`, returning the final window and the published values
in push order. -/
def runPushes (cap : ℕ) (w : List ℚ) : List ℚ → List ℚ × List ℚ
  | [] => (w, [])
  | v :: vs =>
    let r := calculateMovingAverage v w cap
    let rest := runPushes cap r.1 vs
    (rest.1, r.2 :: rest.2)

/-! ### Noise rejection: `statistics.mode` (NO2.py lines 233-238)

```
try:
    vgasLastMode = vgas
    vgas = mode(vgasList)
except Exception as e:
    vgasList.clear()
```

`statistics.mode` returns the sample value with the greatest number of
occurrences; among equally frequent values the one whose first occurrence
comes earliest wins, and on an empty batch (or, on older Python, a batch
with no unique mode) an exception is raised, in which case `vgas` keeps
the most recent raw reading.  The scan is modelled by `pickBest`, which
keeps the current best candidate and replaces it only on a strictly
greater occurrence count. -/

def pickBest [DecidableEq α] (l : List α) : α → List α → α
  | b, [] => b
  | b, x :: rest =>
    if l.count b < l.count x then pickBest l x rest else pickBest l b rest

/-- `statistics.mode`: `none` models a raised exception. -/
def pyStatisticsMode [DecidableEq α] : List α → Option α
  | [] => none
  | x :: rest => some (pickBest (x :: rest) x rest)

/-- The noise-rejection step: the mode of the batch, falling back to the
most recent raw reading when `statistics.mode` raises. -/
def modeStep [DecidableEq α] (vgasList : List α) (vgasLastRaw : α) : α :=
  match pyStatisticsMode vgasList with
  | some m => m
  | none => vgasLastRaw

/-! ### `ModNO2._adcPollingThread` (NO2.py lines 211-251)

Per-sensor configuration stored by `ModNO2.__init__` (lines 35-53). -/

structure NO2Params where
  sensitivity : ℚ
  tia_gain : ℚ
  voffset : ℚ
  movingAverageWindow : ℕ

/-- The concentration computed on lines 240-243:

```
if vgas != -1 and vref != -1:
    vgas0 = vref + self.voffset
    conc = (vgas - vgas0) / (self.tia_gain * 1e3) / (self.sensitivity * 1e-9)
    conc = round(conc, 2)
```
-/
def computeConc (p : NO2Params) (vref vgas : ℚ) : ℚ :=
  let vgas0 := vref + p.voffset
  round2 ((vgas - vgas0) / (p.tia_gain * 1000) / (p.sensitivity * (1 / 1000000000)))

/-- Per-iteration state of `_adcPollingThread`.  `conc` is the Python
local variable `conc`: `none` models that it has not been assigned yet
(it is assigned nowhere before the `while True:` loop).
`no2AverageList` is `self.no2AverageList` and `no2Value` is
`self.no2Value` (the published output). -/
structure PollState where
  conc : Option ℚ
  no2AverageList : List ℚ
  no2Value : ℚ

/-- State after `__init__` (lines 51-53): empty window, published value 0,
`conc` never assigned. -/
def initPollState : PollState := ⟨none, [], 0⟩

/-- Outcome of the `try:` block of one `while True:` iteration
(lines 221-245).  `success vgas` means the block ran to completion with
`vgas` the noise-rejected selected value; `busError` means some bus
transaction inside the block raised, the exception being swallowed by
`except Exception as e: pass`. -/
inductive CycleOutcome where
  | success (vgas : ℚ)
  | busError

/-- Value of the local `conc` after the `try`/`except` of one iteration.
On `busError`, and on a selected value of `-1` (dead branch: the raw
readings can never be `-1` here), `conc` keeps whatever binding it had
from the previous iteration. -/
def cycleConc (p : NO2Params) (vref : ℚ) (st : PollState) : CycleOutcome → Option ℚ
  | .success vgas =>
    if vgas = -1 ∨ vref = -1 then st.conc else some (computeConc p vref vgas)
  | .busError => st.conc

/-- One full iteration of the `while True:` loop.  After the
`try`/`except`, line 248 runs unconditionally and outside any handler:

```
self.no2Value = self._calculateMovingAverage(conc, self.no2AverageList, self.movingAverageWindow)
```

If `conc` has never been assigned this raises `UnboundLocalError`, which
nothing catches: the thread terminates (`Except.error ()`).  Otherwise
the iteration publishes the smoothed value and continues. -/
def pollIter (p : NO2Params) (vref : ℚ) (st : PollState) (out : CycleOutcome) :
    Except Unit PollState :=
  match cycleConc p vref st out with
  | none => Except.error ()
  | some c =>
    let r := calculateMovingAverage c st.no2AverageList p.movingAverageWindow
    Except.ok ⟨some c, r.1, r.2⟩

/-! ### `ModNO2.readNO2` and `ModNO2.readSensors` (NO2.py lines 253-292) -/

def moduleVersionString : String := "NO20.1"

/-- `readNO2` returns `self.no2Value`, whatever the background loop last
published (0 until the first publish). -/
def readNO2 (no2Value : ℚ) : ℚ := no2Value

/-- A value of the `readSensors` dictionary: the module-version string or
a numeric reading. -/
inductive SensorVal where
  | str (s : String)
  | num (q : ℚ)
deriving DecidableEq

/-- `readSensors` (lines 282-292): builds
`sensorData = ['sensor' ↦ "NO20.1", 'no2' ↦ no2]` and returns
`['no2' ↦ sensorData]`, or the sentinel `-1` (modelled `none`) when the
published value is `-1`. -/
def readSensorsNO2 (no2Value : ℚ) :
    Option (List (String × List (String × SensorVal))) :=
  let no2 := readNO2 no2Value
  if no2 = -1 then none
  else some [("no2", [("sensor", SensorVal.str moduleVersionString),
                      ("no2", SensorVal.num no2)])]

/-! ### `ModMAIN._probeModules` (MAIN.py lines 128-145)

The registry of known modules (MAIN.py lines 22-29), in declaration
order. -/

def possibleModules : List (String × ℕ) :=
  [("THV", 0x44), ("CO2", 0x62), ("PM2", 0x69),
   ("NO2", 0x40), ("NRD", 0x60), ("FDH", 0x5D)]

/-- The byte written to probe a module: `0x06` (a reset command) for the
NO2 board, which does not acknowledge a plain `0x0` write, and `0x0` for
every other module (lines 134-141). -/
def probeWriteByte (module : String) : ℕ :=
  if module = "NO2" then 0x06 else 0x00

/-- One run of the probe loop.  `busAck addr value` tells whether
`self.bus.write_byte(addr, value)` completes without raising; a raise is
swallowed (`except: pass`, module treated as absent).  Returns the
rebuilt `moduleNames` and the trace of attempted bus writes
`(addr, value)`. -/
def probeStep (busAck : ℕ → ℕ → Bool)
    (acc : List String × List (ℕ × ℕ)) (p : String × ℕ) :
    List String × List (ℕ × ℕ) :=
  if busAck p.2 (probeWriteByte p.1) then
    (acc.1 ++ [p.1], acc.2 ++ [(p.2, probeWriteByte p.1)])
  else
    (acc.1, acc.2 ++ [(p.2, probeWriteByte p.1)])

def probeModulesRun (busAck : ℕ → ℕ → Bool) : List String × List (ℕ × ℕ) :=
  List.foldl (probeStep busAck) ([], []) possibleModules

/-- `_probeModules`: `self.moduleNames.clear()` discards the previous
contents (`prevModuleNames`), then the probe loop rebuilds the list. -/
def probeModules (busAck : ℕ → ℕ → Bool) (prevModuleNames : List String) :
    List String :=
  (probeModulesRun busAck).1

/-! ### `ModMAIN.createModules` (MAIN.py lines 193-217) -/

/-- The module names handled by the `if moduleName == ...:` chain of
`createModules`, i.e. the keys of the registry. -/
def registryNames : List String := ["THV", "CO2", "PM2", "NO2", "NRD", "FDH"]

/-- Python dictionary assignment `d[k] = v`: overwrite in place if the
key is present, append otherwise. -/
def dictSet (d : List (String × ℕ)) (k : String) (v : ℕ) : List (String × ℕ) :=
  if d.any (fun p => p.1 = k) then
    d.map (fun p => if p.1 = k then (k, v) else p)
  else d ++ [(k, v)]

/-- One iteration of the `createModules` loop body: the `if` chain
constructs the driver for a known name and stores it in
`self.sensorModules[moduleName]`; a constructor that raises is caught by
the per-iteration `except` and logged (`ctor n = none`); a name matching
no `if` leaves the dictionary untouched. -/
def createModuleStep (ctor : String → Option ℕ)
    (sensorModules : List (String × ℕ)) (moduleName : String) :
    List (String × ℕ) :=
  if moduleName ∈ registryNames then
    match ctor moduleName with
    | some inst => dictSet sensorModules moduleName inst
    | none => sensorModules
  else sensorModules

/-- `createModules` over an already-probed list of names, starting from
an empty `sensorModules` dictionary.  `ctor n` is the result of running
the registry constructor for `n`: `some inst` on success, `none` when the
constructor raises (caught and logged, lines 216-217). -/
def createModules (ctor : String → Option ℕ) (moduleNames : List String) :
    List (String × ℕ) :=
  List.foldl (createModuleStep ctor) [] moduleNames

/-! ### `ModMAIN.readAllModules` (MAIN.py lines 219-245) -/

/-- Outcome of one driver's or plugin's `readSensors()` call: a data
dictionary, the `-1` "unavailable" sentinel, or a raised exception. -/
inductive ReadResult where
  | ok (data : List (String × ℤ))
  | unavailable
  | raiseErr

/-- `self.sensorData`, keyed by sensor-category name. -/
def Snapshot : Type := String → Option ℤ

/-- Python `dict.update(data)`: set every key of `data`, later entries
winning. -/
def dictUpdate (s : Snapshot) (data : List (String × ℤ)) : Snapshot :=
  data.foldl (fun acc kv => fun k => if k = kv.1 then some kv.2 else acc k) s

/-- The built-in driver loop (lines 221-228).  A single `try` wraps the
whole `for`: a raised read aborts the loop (remaining drivers unread) and
is caught by the outer `except`, returning the snapshot as mutated so far
plus a flag that an exception escaped the loop.  A `-1` return merely
skips the `update`. -/
def readBuiltinModulesLoop : Snapshot → List ReadResult → Snapshot × Bool
  | s, [] => (s, false)
  | s, .ok d :: rest => readBuiltinModulesLoop (dictUpdate s d) rest
  | s, .unavailable :: rest => readBuiltinModulesLoop s rest
  | s, .raiseErr :: _ => (s, true)

/-- The plugin loop (lines 230-242): an inner per-plugin `try` makes a
raised read skip only that plugin. -/
def readPluginsLoop : Snapshot → List ReadResult → Snapshot
  | s, [] => s
  | s, .ok d :: rest => readPluginsLoop (dictUpdate s d) rest
  | s, .unavailable :: rest => readPluginsLoop s rest
  | s, .raiseErr :: rest => readPluginsLoop s rest

/-- `readAllModules`: built-in drivers first (their loop's escaped
exception is absorbed by the outer `except`), then the plugins; returns
the updated `self.sensorData` unconditionally. -/
def readAllModules (s : Snapshot)
    (builtins plugins : List ReadResult) : Snapshot :=
  readPluginsLoop (readBuiltinModulesLoop s builtins).1 plugins

/-! ### `ModMAIN.loadPlugins` (MAIN.py lines 372-402)

A candidate `.py` file is modelled by `Option (List (Option ℕ))`:
`none` when `imp.load_module` raises (file fails to load), otherwise the
classes found in the module by `inspect.getmembers`, each `some inst`
when `obj()` constructs an instance and `none` when the constructor
raises. -/

/-- The file phase (lines 383-393): each file is loaded under its own
`try`, so a file that fails to load is logged and skipped. -/
def loadPluginFiles (files : List (Option (List (Option ℕ)))) :
    List (List (Option ℕ)) :=
  files.filterMap id

/-- The instantiation phase (lines 396-400): `self.plugins.append(obj())`
runs with no surrounding `try`, so the first constructor that raises
propagates out of `loadPlugins`, keeping the instances appended so far
(`Except.error`). -/
def instantiateAll : List ℕ → List (Option ℕ) → Except (List ℕ) (List ℕ)
  | acc, [] => Except.ok acc
  | acc, some inst :: rest => instantiateAll (acc ++ [inst]) rest
  | acc, none :: _ => Except.error acc

/-- `loadPlugins`: load files, instantiate every class of every loaded
module, and report `len(self.plugins)` (line 402).  `Except.error l`
models the loader raising with `self.plugins = l` at that point. -/
def loadPlugins (files : List (Option (List (Option ℕ)))) :
    Except (List ℕ) (List ℕ × ℕ) :=
  match instantiateAll [] (loadPluginFiles files).flatten with
  | Except.ok l => Except.ok (l, l.length)
  | Except.error l => Except.error l

/-! ## Helper lemmas -/

theorem roundHalfEven_intCast (n : ℤ) : roundHalfEven ((n : ℤ) : ℚ) = n := by
  unfold roundHalfEven
  simp [Rat.num_intCast, Rat.den_intCast, Int.fdiv_one]

theorem round2_intCast (n : ℤ) : round2 ((n : ℤ) : ℚ) = n := by
  have h : ((n : ℚ) * 100) = ((n * 100 : ℤ) : ℚ) := by push_cast; ring
  rw [round2, h, roundHalfEven_intCast]
  push_cast
  field_simp

/-- `round(x, 2)` leaves a rational with an integer value unchanged. -/
theorem round2_of_eq_intCast (q : ℚ) (n : ℤ) (h : q = (n : ℚ)) : round2 q = q := by
  rw [h, round2_intCast]

theorem cmaPush1 : calculateMovingAverage 10 [] 3 = ([10], 10) := by
  unfold calculateMovingAverage
  norm_num [List.eraseIdx]
  exact round2_of_eq_intCast _ 10 (by norm_num)

theorem cmaPush2 : calculateMovingAverage 20 [10] 3 = ([20, 10], 15) := by
  unfold calculateMovingAverage
  norm_num [List.eraseIdx]
  exact round2_of_eq_intCast _ 15 (by norm_num)

theorem cmaPush3 : calculateMovingAverage 30 [20, 10] 3 = ([30, 20, 10], 20) := by
  unfold calculateMovingAverage
  norm_num [List.eraseIdx]
  exact round2_of_eq_intCast _ 20 (by norm_num)

theorem cmaPush4 : calculateMovingAverage 40 [30, 20, 10] 3 = ([40, 30, 20], 30) := by
  unfold calculateMovingAverage
  norm_num [List.eraseIdx]
  exact round2_of_eq_intCast _ 30 (by norm_num)

theorem runPushes_scenario :
    runPushes 3 [] [10, 20, 30, 40] = ([40, 30, 20], [10, 15, 20, 30]) := by
  simp [runPushes, cmaPush1, cmaPush2, cmaPush3, cmaPush4]

theorem movingAverage_window_not_full (x : ℚ) (w : List ℚ) (cap : ℕ)
    (h : w.length < cap) : (calculateMovingAverage x w cap).1 = x :: w := by
  unfold calculateMovingAverage
  exact List.eraseIdx_of_length_le (by simp; omega)

theorem movingAverage_window_full (x : ℚ) (w : List ℚ) (cap : ℕ)
    (h : w.length = cap) :
    (calculateMovingAverage x w cap).1 = (x :: w).dropLast := by
  unfold calculateMovingAverage
  exact (List.dropLast_eq_eraseIdx (by simp [h])).symm

theorem movingAverage_head (x : ℚ) (w : List ℚ) (cap : ℕ) (hcap : 1 ≤ cap) :
    (calculateMovingAverage x w cap).1.head? = some x := by
  obtain ⟨n, rfl⟩ : ∃ n, cap = n + 1 := ⟨cap - 1, by omega⟩
  unfold calculateMovingAverage
  simp [List.eraseIdx_cons_succ]

theorem movingAverage_len_le (x : ℚ) (w : List ℚ) (cap : ℕ)
    (hw : w.length ≤ cap) : (calculateMovingAverage x w cap).1.length ≤ cap := by
  rcases lt_or_eq_of_le hw with h | h
  · rw [movingAverage_window_not_full x w cap h]
    simp; omega
  · rw [movingAverage_window_full x w cap h]
    simp [h]

theorem runPushes_window_le (cap : ℕ) :
    ∀ (vs : List ℚ) (w : List ℚ), w.length ≤ cap →
      ((runPushes cap w vs).1).length ≤ cap
  | [], _, hw => hw
  | v :: vs, w, hw => by
    rw [runPushes]
    exact runPushes_window_le cap vs _ (movingAverage_len_le v w cap hw)

theorem pickBest_mem [DecidableEq α] (l : List α) :
    ∀ (rest : List α) (b : α), pickBest l b rest ∈ b :: rest
  | [], b => by simp [pickBest]
  | x :: rest, b => by
    rw [pickBest]
    split
    · have h := pickBest_mem l rest x
      simp only [List.mem_cons] at h ⊢
      tauto
    · have h := pickBest_mem l rest b
      simp only [List.mem_cons] at h ⊢
      tauto

theorem pickBest_count_ge [DecidableEq α] (l : List α) :
    ∀ (rest : List α) (b : α),
      l.count b ≤ l.count (pickBest l b rest) ∧
        ∀ x ∈ rest, l.count x ≤ l.count (pickBest l b rest)
  | [], b => by simp [pickBest]
  | x :: rest, b => by
    rw [pickBest]
    split
    · rename_i hlt
      obtain ⟨h1, h2⟩ := pickBest_count_ge l rest x
      refine ⟨le_trans (le_of_lt hlt) h1, ?_⟩
      intro y hy
      rcases List.mem_cons.mp hy with rfl | hy
      · exact h1
      · exact h2 y hy
    · rename_i hge
      obtain ⟨h1, h2⟩ := pickBest_count_ge l rest b
      refine ⟨h1, ?_⟩
      intro y hy
      rcases List.mem_cons.mp hy with rfl | hy
      · exact le_trans (le_of_not_lt hge) h1
      · exact h2 y hy

theorem probeFold_names (busAck : ℕ → ℕ → Bool) :
    ∀ (l : List (String × ℕ)) (acc : List String × List (ℕ × ℕ)),
      (List.foldl (probeStep busAck) acc l).1
        = acc.1 ++ (l.filter (fun p => busAck p.2 (probeWriteByte p.1))).map Prod.fst
  | [], acc => by simp
  | p :: l, acc => by
    rw [List.foldl_cons, probeFold_names busAck l]
    by_cases h : busAck p.2 (probeWriteByte p.1) <;>
      simp [probeStep, h]

theorem probeFold_trace (busAck : ℕ → ℕ → Bool) :
    ∀ (l : List (String × ℕ)) (acc : List String × List (ℕ × ℕ)),
      (List.foldl (probeStep busAck) acc l).2
        = acc.2 ++ l.map (fun p => (p.2, probeWriteByte p.1))
  | [], acc => by simp
  | p :: l, acc => by
    rw [List.foldl_cons, probeFold_trace busAck l]
    by_cases h : busAck p.2 (probeWriteByte p.1) <;>
      simp [probeStep, h]

theorem dictSet_of_fresh_key (d : List (String × ℕ)) (k : String) (v : ℕ)
    (h : ∀ p ∈ d, p.1 ≠ k) : dictSet d k v = d ++ [(k, v)] := by
  unfold dictSet
  rw [if_neg]
  simp only [List.any_eq_true, decide_eq_true_eq, not_exists, not_and]
  exact fun p hp => h p hp

theorem createModules_go (ctor : String → Option ℕ) :
    ∀ (names : List String) (acc : List (String × ℕ)),
      names.Nodup → (∀ n ∈ names, ∀ p ∈ acc, p.1 ≠ n) →
      List.foldl (createModuleStep ctor) acc names
        = acc ++ names.filterMap
            (fun n => if n ∈ registryNames then (ctor n).map (fun i => (n, i)) else none)
  | [], acc, _, _ => by simp
  | n :: names, acc, hnd, hacc => by
    rw [List.foldl_cons]
    have hnd' : names.Nodup := hnd.of_cons
    by_cases hreg : n ∈ registryNames
    · cases hc : ctor n with
      | none =>
        have hstep : createModuleStep ctor acc n = acc := by
          simp [createModuleStep, hreg, hc]
        rw [hstep, createModules_go ctor names acc hnd'
          (fun m hm p hp => hacc m (List.mem_cons_of_mem n hm) p hp)]
        simp [hreg, hc]
      | some i =>
        have hstep : createModuleStep ctor acc n = acc ++ [(n, i)] := by
          simp only [createModuleStep, if_pos hreg, hc]
          exact dictSet_of_fresh_key acc n i (hacc n (List.mem_cons_self n names))
        have hacc' : ∀ m ∈ names, ∀ p ∈ acc ++ [(n, i)], p.1 ≠ m := by
          intro m hm p hp
          rcases List.mem_append.mp hp with hp | hp
          · exact hacc m (List.mem_cons_of_mem n hm) p hp
          · have hpn : p = (n, i) := by simpa using hp
            subst hpn
            intro hne
            have hnm : n = m := hne
            subst hnm
            exact (List.nodup_cons.mp hnd).1 hm
        rw [hstep, createModules_go ctor names (acc ++ [(n, i)]) hnd' hacc']
        simp [hreg, hc]
    · have hstep : createModuleStep ctor acc n = acc := by
        simp [createModuleStep, hreg]
      rw [hstep, createModules_go ctor names acc hnd'
        (fun m hm p hp => hacc m (List.mem_cons_of_mem n hm) p hp)]
      simp [hreg]

theorem filterMap_ctor_length (ctor : String → Option ℕ) :
    ∀ names : List String,
      (names.filterMap (fun n => (ctor n).map (fun i => (n, i)))).length
        + (names.filter (fun n => (ctor n).isNone)).length = names.length
  | [] => by simp
  | n :: names => by
    have ih := filterMap_ctor_length ctor names
    cases hc : ctor n <;>
      simp [List.filterMap_cons, List.filter_cons, hc] <;> omega

theorem map_fst_filterMap_ctor (ctor : String → Option ℕ) :
    ∀ names : List String,
      (names.filterMap (fun n => (ctor n).map (fun i => (n, i)))).map Prod.fst
        = names.filter (fun n => (ctor n).isSome)
  | [] => by simp
  | n :: names => by
    cases hc : ctor n <;>
      simp [List.filterMap_cons, List.filter_cons, hc, map_fst_filterMap_ctor ctor names]

theorem readBuiltins_skip_sentinel :
    ∀ (pre : List ReadResult) (s : Snapshot) (post : List ReadResult),
      readBuiltinModulesLoop s (pre ++ ReadResult.unavailable :: post)
        = readBuiltinModulesLoop s (pre ++ post)
  | [], _, _ => rfl
  | r :: pre, s, post => by
    cases r with
    | ok d => exact readBuiltins_skip_sentinel pre (dictUpdate s d) post
    | unavailable => exact readBuiltins_skip_sentinel pre s post
    | raiseErr => rfl

theorem readBuiltins_raise_stops :
    ∀ (pre : List ReadResult) (s : Snapshot) (post : List ReadResult),
      (readBuiltinModulesLoop s (pre ++ ReadResult.raiseErr :: post)).1
        = (readBuiltinModulesLoop s pre).1
  | [], _, _ => rfl
  | r :: pre, s, post => by
    cases r with
    | ok d => exact readBuiltins_raise_stops pre (dictUpdate s d) post
    | unavailable => exact readBuiltins_raise_stops pre s post
    | raiseErr => rfl

/-! ## Claim theorems -/

/-- C1 (corrected).  In `readAllModules`, a driver whose `readSensors`
returns the `-1` "unavailable" sentinel leaves the prior snapshot value
for its key untouched and the remaining built-in drivers are still read
(first conjunct: the sentinel driver can be deleted from the sequence
without changing the result).  A driver whose `readSensors` raises also
leaves the prior value untouched and the failure is not propagated to the
caller (the model of `readAllModules` is total and still processes the
plugin list), but — contrary to the original claim — the remaining
built-in drivers of that call are NOT read: the single `try` wraps the
whole built-in `for` loop, so the raised read aborts the rest of the loop
(second conjunct). -/
theorem c1_read_failure_semantics (s : Snapshot) (pre post plugins : List ReadResult) :
    readAllModules s (pre ++ ReadResult.unavailable :: post) plugins
      = readAllModules s (pre ++ post) plugins ∧
    readAllModules s (pre ++ ReadResult.raiseErr :: post) plugins
      = readPluginsLoop (readBuiltinModulesLoop s pre).1 plugins := by
  constructor
  · unfold readAllModules
    rw [readBuiltins_skip_sentinel]
  · unfold readAllModules
    rw [readBuiltins_raise_stops]

/-- C1 counterexample.  Two built-in drivers: the first raises, the
second would return the reading `b = 5`.  The claim says the second
driver is still read, so the snapshot would hold `b = 5`; the code leaves
`b` absent, because the raised first read aborts the built-in loop. -/
theorem c1_counterexample_raise_skips_siblings :
    readAllModules (fun _ => none) [ReadResult.raiseErr, ReadResult.ok [("b", 5)]] [] "b"
      = none ∧ (none : Option ℤ) ≠ some 5 :=
  ⟨rfl, by simp⟩

/-- C2 (code_bug).  If a bus error is caught by the cycle's
`except: pass` during the very first `while True:` iteration, the local
variable `conc` has never been assigned, and line 248
(`self.no2Value = self._calculateMovingAverage(conc, ...)`) — which runs
outside any `try` — raises `UnboundLocalError`, terminating the polling
thread.  This contradicts the claim (and the spec) that the loop never
terminates; the claim matches the evident intent of the
`except Exception as e: pass` handler, so the code is the bug. -/
theorem c2_first_cycle_bus_error_terminates (p : NO2Params) (vref : ℚ) :
    pollIter p vref initPollState CycleOutcome.busError = Except.error () := rfl

/-- C3 (corrected).  In `loadPlugins`, a file that fails to load is
logged and skipped and loading continues with the next candidate (first
conjunct: a failed file can be deleted from the candidate list without
changing the result), and the 3-file scenario holds: with exactly one of
3 candidate files failing to load, the registry ends with the instances
from the other 2 files and the loader reports 2 loaded (second
conjunct).  Contrary to the original claim, a class that fails to
construct is NOT skipped: `self.plugins.append(obj())` runs with no
surrounding `try`, so the exception propagates out of `loadPlugins` (see
the counterexample). -/
theorem c3_loader_semantics :
    (∀ pre post : List (Option (List (Option ℕ))),
      loadPlugins (pre ++ none :: post) = loadPlugins (pre ++ post)) ∧
    loadPlugins [some [some 1], none, some [some 2]] = Except.ok ([1, 2], 2) := by
  constructor
  · intro pre post
    unfold loadPlugins loadPluginFiles
    rw [List.filterMap_append, List.filterMap_append]
    rfl
  · rfl

/-- C3 counterexample.  One file loads and defines three classes of which
the second fails to construct: the loader raises (models as
`Except.error`) with only the first instance registered, instead of
skipping the failing class and continuing as the claim states. -/
theorem c3_counterexample_class_failure_aborts :
    loadPlugins [some [some 1, none, some 2]] = Except.error [1] ∧
    ∀ r, loadPlugins [some [some 1, none, some 2]] ≠ Except.ok r := by
  refine ⟨rfl, ?_⟩
  intro r h
  rw [show loadPlugins [some [some 1, none, some 2]] = Except.error [1] from rfl] at h
  exact Except.noConfusion h

/-- C4 (corrected).  With window capacity 3, pushing 10, 20, 30, 40
through `_calculateMovingAverage` from an empty window publishes the mean
sequence 10.0, 15.0, 20.0, 30.0 as the claim states, but after the 4th
push the window holds [40, 30, 20] — the newest value is at the front and
the oldest (10) was evicted from the tail — not [30, 20, 10] as the claim
states. -/
theorem c4_scenario_means_and_window :
    (runPushes 3 [] [10, 20, 30, 40]).2 = [10, 15, 20, 30] ∧
    (runPushes 3 [] [10, 20, 30, 40]).1 = [40, 30, 20] := by
  rw [runPushes_scenario]
  exact ⟨rfl, rfl⟩

/-- C4 counterexample.  After the 4th push the window is [40, 30, 20],
which differs from the [30, 20, 10] asserted by the claim. -/
theorem c4_counterexample_window_contents :
    (runPushes 3 [] [10, 20, 30, 40]).1 = [40, 30, 20] ∧
    (runPushes 3 [] [10, 20, 30, 40]).1 ≠ ([30, 20, 10] : List ℚ) := by
  rw [runPushes_scenario]
  refine ⟨rfl, ?_⟩
  intro h
  have h40 : (40 : ℚ) = 30 := by
    have := List.head_eq_of_cons_eq h
    exact this
  norm_num at h40

/-- C5 (confirmed).  For a window at or below the configured capacity
(every window reachable by pushes from the empty initial window is such):
the new value is inserted at the front; while the window is below
capacity nothing is evicted; once the push would exceed capacity, exactly
one element — the oldest, at the tail — is evicted (`dropLast`); the
window length never exceeds the capacity, including along any whole
sequence of pushes from the empty window; and the returned value is the
arithmetic mean of exactly the current window contents, rounded to 2
decimal places. -/
theorem c5_moving_average_invariants (cap : ℕ) (x : ℚ) (w vs : List ℚ)
    (hcap : 1 ≤ cap) (hw : w.length ≤ cap) :
    (calculateMovingAverage x w cap).1.head? = some x ∧
    (w.length < cap → (calculateMovingAverage x w cap).1 = x :: w) ∧
    (w.length = cap → (calculateMovingAverage x w cap).1 = (x :: w).dropLast ∧
      (calculateMovingAverage x w cap).1.length = cap) ∧
    (calculateMovingAverage x w cap).1.length ≤ cap ∧
    (calculateMovingAverage x w cap).2
      = round2 ((calculateMovingAverage x w cap).1.sum
          / ((calculateMovingAverage x w cap).1.length : ℚ)) ∧
    ((runPushes cap [] vs).1).length ≤ cap := by
  refine ⟨movingAverage_head x w cap hcap, movingAverage_window_not_full x w cap, ?_,
    movingAverage_len_le x w cap hw, rfl, runPushes_window_le cap vs [] (by simp)⟩
  intro h
  refine ⟨movingAverage_window_full x w cap h, ?_⟩
  rw [movingAverage_window_full x w cap h]
  simp [h]

/-- C5 witness: capacity 3, full window [3, 2, 1], push 4 evicts the tail
(1), and a 4-push run from the empty window stays within capacity. -/
theorem c5_witness :
    1 ≤ 3 ∧ (([3, 2, 1] : List ℚ)).length ≤ 3 ∧
    (calculateMovingAverage 4 [3, 2, 1] 3).1 = ((4 : ℚ) :: [3, 2, 1]).dropLast ∧
    ((runPushes 3 [] [10, 20, 30, 40]).1).length ≤ 3 :=
  ⟨by norm_num, by decide,
    ((c5_moving_average_invariants 3 4 [3, 2, 1] [10, 20, 30, 40]
        (by norm_num) (by decide)).2.2.1 (by decide)).1,
    (c5_moving_average_invariants 3 4 [3, 2, 1] [10, 20, 30, 40]
        (by norm_num) (by decide)).2.2.2.2.2⟩

/-- C6 (confirmed).  If a batch of raw samples has a strict plurality
value `v` (every other value occurring in the batch has a strictly
smaller occurrence count), the noise-rejection step — `statistics.mode`
with fallback to the most recent raw reading — selects exactly `v`,
whatever the other samples and their order. -/
theorem c6_mode_strict_plurality [DecidableEq α] (l : List α) (lastRaw v : α)
    (hv : v ∈ l) (hdom : ∀ w ∈ l, w ≠ v → l.count w < l.count v) :
    modeStep l lastRaw = v := by
  cases l with
  | nil => cases hv
  | cons x rest =>
    have hmem : pickBest (x :: rest) x rest ∈ x :: rest := pickBest_mem _ rest x
    have hge := pickBest_count_ge (x :: rest) rest x
    have hvc : (x :: rest).count v
        ≤ (x :: rest).count (pickBest (x :: rest) x rest) := by
      rcases List.mem_cons.mp hv with rfl | hv2
      · exact hge.1
      · exact hge.2 v hv2
    by_cases heq : pickBest (x :: rest) x rest = v
    · simpa [modeStep, pyStatisticsMode] using heq
    · exact absurd (lt_of_lt_of_le (hdom _ hmem heq) hvc) (lt_irrefl _)

/-- C6 witness: in the batch [5, 7, 5] the value 5 is a strict plurality
and the noise-rejection step selects it (fallback value 9 unused). -/
theorem c6_witness :
    (5 : ℤ) ∈ [5, 7, 5] ∧
    (∀ w ∈ [5, 7, 5], w ≠ (5 : ℤ) → [5, 7, 5].count w < [5, 7, 5].count 5) ∧
    modeStep [5, 7, 5] (9 : ℤ) = 5 :=
  ⟨by decide, by decide, c6_mode_strict_plurality [5, 7, 5] 9 5 (by decide) (by decide)⟩

/-- C7 (confirmed).  `_probeModules`: the discovered sequence is exactly
the registry entries whose probe write completes without a bus error, in
registry-declaration order (first conjunct, which also gives that every
discovered name comes from the registry — second conjunct — and the
order/sublist property — fourth conjunct); the result is independent of
the previous contents of `moduleNames`, which is cleared at entry (third
conjunct); and the probe attempts one bus write per registry entry, with
all attempted addresses distinct, so each known address is attempted at
most once per call (fifth and sixth conjuncts). -/
theorem c7_probe_semantics (busAck : ℕ → ℕ → Bool) (prev prev2 : List String) :
    probeModules busAck prev
        = (possibleModules.filter (fun p => busAck p.2 (probeWriteByte p.1))).map Prod.fst ∧
    (∀ m ∈ probeModules busAck prev, m ∈ possibleModules.map Prod.fst) ∧
    probeModules busAck prev = probeModules busAck prev2 ∧
    List.Sublist (probeModules busAck prev) (possibleModules.map Prod.fst) ∧
    (probeModulesRun busAck).2 = possibleModules.map (fun p => (p.2, probeWriteByte p.1)) ∧
    ((probeModulesRun busAck).2.map Prod.fst).Nodup := by
  have hnames : probeModules busAck prev
      = (possibleModules.filter (fun p => busAck p.2 (probeWriteByte p.1))).map Prod.fst := by
    unfold probeModules probeModulesRun
    rw [probeFold_names]
    rfl
  have hsub : List.Sublist (probeModules busAck prev) (possibleModules.map Prod.fst) := by
    rw [hnames]
    exact List.Sublist.map Prod.fst (List.filter_sublist possibleModules)
  have htrace : (probeModulesRun busAck).2
      = possibleModules.map (fun p => (p.2, probeWriteByte p.1)) := by
    unfold probeModulesRun
    rw [probeFold_trace]
    rfl
  refine ⟨hnames, fun m hm => hsub.subset hm, rfl, hsub, htrace, ?_⟩
  rw [htrace]
  simp [possibleModules, probeWriteByte]

/-- C8 (confirmed).  `createModules` over probed names (distinct, all
from the registry): one constructor raising does not abort the others —
the result is exactly the per-name filterMap of successful constructions
(first conjunct); with K of the N names failing, exactly N − K driver
instances result (second conjunct); and the surviving instances keep the
original relative order, being the original sequence filtered to the
successful names, independent of which ones failed (third conjunct). -/
theorem c8_createModules_isolation (ctor : String → Option ℕ) (names : List String)
    (hnd : names.Nodup) (hreg : ∀ n ∈ names, n ∈ registryNames) :
    createModules ctor names = names.filterMap (fun n => (ctor n).map (fun i => (n, i))) ∧
    (createModules ctor names).length
      = names.length - (names.filter (fun n => (ctor n).isNone)).length ∧
    (createModules ctor names).map Prod.fst = names.filter (fun n => (ctor n).isSome) := by
  have hchar : createModules ctor names
      = names.filterMap (fun n => (ctor n).map (fun i => (n, i))) := by
    unfold createModules
    rw [createModules_go ctor names [] hnd (by simp)]
    rw [List.nil_append]
    exact List.filterMap_congr (fun n hn => by rw [if_pos (hreg n hn)])
  refine ⟨hchar, ?_, ?_⟩
  · rw [hchar]
    have := filterMap_ctor_length ctor names
    omega
  · rw [hchar]
    exact map_fst_filterMap_ctor ctor names

/-- C8 witness: of the 3 probed names THV, CO2, PM2 the CO2 constructor
fails; the surviving instances are THV and PM2, in that order. -/
theorem c8_witness :
    (["THV", "CO2", "PM2"] : List String).Nodup ∧
    (∀ n ∈ (["THV", "CO2", "PM2"] : List String), n ∈ registryNames) ∧
    (createModules (fun n => if n = "CO2" then none else some 0)
        ["THV", "CO2", "PM2"]).map Prod.fst
      = (["THV", "CO2", "PM2"] : List String).filter
          (fun n => ((fun n => if n = "CO2" then none else some 0) n).isSome) ∧
    (["THV", "CO2", "PM2"] : List String).filter
        (fun n => ((fun n => if n = "CO2" then none else some (0 : ℕ)) n).isSome)
      = ["THV", "PM2"] :=
  ⟨by decide, by decide,
    (c8_createModules_isolation (fun n => if n = "CO2" then none else some 0)
      ["THV", "CO2", "PM2"] (by decide) (by decide)).2.2, by decide⟩

/-- C9 (confirmed).  In a sampling cycle that selected the raw value
`vgas` (with the cached reference `vref`, both differing from the `-1`
sentinel), the concentration handed to the smoothing step — the `conc`
argument of `_calculateMovingAverage`, recorded in the post-state — is
exactly `(vgas − (vref + voffset)) / (tia_gain × 1e3) / (sensitivity ×
1e-9)` rounded to 2 decimal places, with the configuration values
supplied at construction. -/
theorem c9_concentration_formula (p : NO2Params) (vref vgas : ℚ) (st : PollState)
    (hg : vgas ≠ -1) (hr : vref ≠ -1) :
    ∃ st', pollIter p vref st (CycleOutcome.success vgas) = Except.ok st' ∧
      st'.conc = some (round2 ((vgas - (vref + p.voffset)) /
        (p.tia_gain * 1000) / (p.sensitivity * (1 / 1000000000)))) := by
  have h1 : cycleConc p vref st (CycleOutcome.success vgas)
      = some (computeConc p vref vgas) := by
    simp [cycleConc, hg, hr]
  unfold pollIter
  rw [h1]
  exact ⟨_, rfl, rfl⟩

/-- C9 witness: unit gains and offsets, `vref = 1`, `vgas = 2`. -/
theorem c9_witness :
    (2 : ℚ) ≠ -1 ∧ (1 : ℚ) ≠ -1 ∧
    ∃ st', pollIter ⟨1, 1, 0, 15⟩ 1 initPollState (CycleOutcome.success 2) = Except.ok st' ∧
      st'.conc = some (round2 ((2 - (1 + 0)) / (1 * 1000) / (1 * (1 / 1000000000)))) :=
  ⟨by norm_num, by norm_num,
    c9_concentration_formula ⟨1, 1, 0, 15⟩ 1 2 initPollState (by norm_num) (by norm_num)⟩

/-- C10 (confirmed).  A freshly constructed `ModNO2` has published value
0 (set in `__init__` before the polling thread starts), so `readNO2`
returns 0 and `readSensors` returns the nested mapping with sensor string
"NO20.1" and reading 0 — not the `-1` sentinel; and `readSensors` returns
the sentinel exactly when the published value is `-1`. -/
theorem c10_fresh_instance_reads_zero :
    readNO2 initPollState.no2Value = 0 ∧
    readSensorsNO2 initPollState.no2Value =
      some [("no2", [("sensor", SensorVal.str "NO20.1"), ("no2", SensorVal.num 0)])] ∧
    ∀ v : ℚ, readSensorsNO2 v = none ↔ v = -1 := by
  refine ⟨rfl, ?_, ?_⟩
  · simp [readSensorsNO2, readNO2, initPollState, moduleVersionString]
  · intro v
    by_cases hv : v = -1 <;> simp [readSensorsNO2, readNO2, hv]
